import Mathlib

/-!
Shallow embedding of the per-frame orchestration core of the
park-scene-vulkan renderer (FirstApp::run in src/first_app.hpp together
with the #included loop body).  The loop body is translated directly from
the source; collaborators whose sources are not in the repository snapshot
(LveRenderer, LveCamera, KeyboardMovementController, PointLightSystem,
LveGameObject::Map, LveSwapChain constants) are modelled from the spec,
each marked in its doc comment.  Per-iteration observable behaviour is
recorded as a trace of events; numeric quantities (time, positions) use
rationals as the shallow model of the float values.
-/

namespace ParkScene

/-- Three-component vector, the shallow model of glm::vec3. -/
structure Vec3 where
  x : ℚ
  y : ℚ
  z : ℚ
deriving DecidableEq, Repr

/-- Componentwise vector addition. -/
def Vec3.add (a b : Vec3) : Vec3 := ⟨a.x + b.x, a.y + b.y, a.z + b.z⟩

/-- Scalar multiplication of a vector. -/
def Vec3.smul (c : ℚ) (v : Vec3) : Vec3 := ⟨c * v.x, c * v.y, c * v.z⟩

/-- Transform component of a game object: translation, scale, rotation
(lve_game_object.hpp; fields as used by first_app). -/
structure TransformComponent where
  translation : Vec3 := ⟨0, 0, 0⟩
  scale : Vec3 := ⟨1, 1, 1⟩
  rotation : Vec3 := ⟨0, 0, 0⟩
deriving DecidableEq, Repr

/-- Point-light attribute carried by light entities (lightIntensity as in
LveGameObject::makePointLight). -/
structure PointLightComponent where
  lightIntensity : ℚ
deriving DecidableEq, Repr

/-- A scene entity: stable identifier, color, transform, optional mesh
reference (tracked only as presence) and optional light attribute. -/
structure LveGameObject where
  id : ℕ
  color : Vec3 := ⟨0, 0, 0⟩
  transform : TransformComponent := {}
  hasModel : Bool := false
  pointLight : Option PointLightComponent := none
deriving DecidableEq, Repr

/-- Modelled from the spec: LveGameObject::Map (lve_game_object.hpp is not
in the snapshot).  The spec describes the Scene Registry as an
ordered-by-insertion mapping from identifier to Entity whose iteration
order is insertion order, so it is modelled as the list of entries in
insertion order. -/
abbrev GameObjectMap : Type := List LveGameObject

/-- Whether the registry already holds an entry with the given identifier. -/
def GameObjectMap.containsId (m : GameObjectMap) (i : ℕ) : Bool :=
  List.any m (fun o => o.id = i)

/-- Modelled from the spec: map insertion (emplace keyed by getId).  A new
identifier is appended, preserving insertion order; an existing identifier
leaves the map unchanged (emplace does not overwrite). -/
def GameObjectMap.emplace (m : GameObjectMap) (obj : LveGameObject) : GameObjectMap :=
  if GameObjectMap.containsId m obj.id then m else m ++ [obj]

/-- Camera matrices represented symbolically by the parameters that defined
them, which is all the orchestrator claims depend on: which frame's camera
parameters end up in the uploaded block. -/
inductive Mat4 where
  | ident : Mat4
  | viewYXZ (position rot : Vec3) : Mat4
  | invViewYXZ (position rot : Vec3) : Mat4
  | perspective (fovyDeg aspect near far : ℚ) : Mat4
deriving DecidableEq, Repr

/-- Modelled from the spec: LveCamera (lve_camera.hpp/.cpp are not in the
snapshot).  The camera stores the three matrices; setters overwrite them
from their arguments and getters return the stored values. -/
structure LveCamera where
  projectionMatrix : Mat4 := Mat4.ident
  viewMatrix : Mat4 := Mat4.ident
  inverseViewMatrix : Mat4 := Mat4.ident
deriving DecidableEq, Repr

/-- Modelled from the spec: setViewYXZ stores the view and inverse-view
derived from the viewer position and rotation. -/
def LveCamera.setViewYXZ (cam : LveCamera) (position rot : Vec3) : LveCamera :=
  { cam with viewMatrix := Mat4.viewYXZ position rot,
             inverseViewMatrix := Mat4.invViewYXZ position rot }

/-- Modelled from the spec: setPerspectiveProjection stores the projection
derived from field of view (degrees, converted externally), aspect and the
near and far planes. -/
def LveCamera.setPerspectiveProjection (cam : LveCamera)
    (fovyDeg aspect near far : ℚ) : LveCamera :=
  { cam with projectionMatrix := Mat4.perspective fovyDeg aspect near far }

/-- Getter for the stored projection matrix. -/
def LveCamera.getProjection (cam : LveCamera) : Mat4 := cam.projectionMatrix

/-- Getter for the stored view matrix. -/
def LveCamera.getView (cam : LveCamera) : Mat4 := cam.viewMatrix

/-- Getter for the stored inverse-view matrix. -/
def LveCamera.getInverseView (cam : LveCamera) : Mat4 := cam.inverseViewMatrix

/-- Modelled from the spec: fixed maximum number of light descriptors in the
Shared State Block (lve_frame_info.hpp is not in the snapshot; the spec
requires a fixed maximum with silent truncation). -/
def MAX_LIGHTS : ℕ := 10

/-- Modelled from the spec: number of frame slots in flight
(LveSwapChain::MAX_FRAMES_IN_FLIGHT; lve_swap_chain.hpp is not in the
snapshot; the spec's end-to-end scenario fixes N = 2). -/
def MAX_FRAMES_IN_FLIGHT : ℕ := 2

/-- One light descriptor of the Shared State Block. -/
structure PointLight where
  position : Vec3
  color : Vec3
  intensity : ℚ
deriving DecidableEq, Repr

/-- The Shared State Block (GlobalUbo): camera matrices plus the dynamic
light descriptor list (its length is numLights). -/
structure GlobalUbo where
  projection : Mat4 := Mat4.ident
  view : Mat4 := Mat4.ident
  inverseView : Mat4 := Mat4.ident
  pointLights : List PointLight := []
deriving DecidableEq, Repr

/-- Light descriptor written for one light entity: position from its
transform, color and intensity from the light attribute. -/
def mkPointLightDesc (o : LveGameObject) : PointLight :=
  { position := o.transform.translation,
    color := o.color,
    intensity := match o.pointLight with
                 | some pl => pl.lightIntensity
                 | none => 0 }

/-- Modelled from the spec: PointLightSystem::update (systems/
point_light_system.cpp is not in the snapshot).  The designated lighting
subsystem scans the Scene Registry in iteration order for entities carrying
a light attribute and writes their descriptors into the Shared State Block,
up to MAX_LIGHTS, silently truncating the excess; the camera portion is
left untouched. -/
def PointLightSystem.update (registry : GameObjectMap) (ubo : GlobalUbo) : GlobalUbo :=
  let lit := List.take MAX_LIGHTS (List.filter (fun o => o.pointLight.isSome) registry)
  { ubo with pointLights := List.map mkPointLightDesc lit }

/-- Per-iteration camera-control deltas supplied by the input collaborator
(keyboard state read by moveInPlaneXZ). -/
structure CameraInput where
  moveDelta : Vec3 := ⟨0, 0, 0⟩
  rotDelta : Vec3 := ⟨0, 0, 0⟩
deriving DecidableEq, Repr

/-- Modelled from the spec: KeyboardMovementController::moveInPlaneXZ
(keyboard_movement_controller is not in the snapshot).  The controller
advances the viewer transform by this iteration's input deltas scaled by
the frame time delta. -/
def moveInPlaneXZ (input : CameraInput) (dt : ℚ) (obj : LveGameObject) : LveGameObject :=
  { obj with transform :=
      { obj.transform with
        translation := Vec3.add obj.transform.translation (Vec3.smul dt input.moveDelta),
        rotation := Vec3.add obj.transform.rotation (Vec3.smul dt input.rotDelta) } }

/-- Frame Context handed to the subsystems each rendered frame (FrameInfo):
slot index, frame time delta, the camera, and the Scene Registry. -/
structure FrameInfo where
  frameIndex : ℕ
  frameTime : ℚ
  camera : LveCamera
  gameObjects : GameObjectMap
deriving DecidableEq, Repr

/-- Observable per-iteration events of the orchestrator loop, in program
order: the four unconditional pre-frame steps, then either a skipped frame
or the full update-upload-render sequence. -/
inductive Event where
  | pollEvents : Event
  | moveCamera : Event
  | setView : Event
  | setProjection : Event
  | beginFrame (ok : Bool) : Event
  | updateLights : Event
  | writeUbo : Event
  | flushUbo : Event
  | beginPass : Event
  | renderOpaque : Event
  | renderPointLight : Event
  | endPass : Event
  | endFrame : Event
deriving DecidableEq, Repr

/-- External observations consumed by one loop iteration: the wall-clock
reading, the input deltas, the current aspect value, and whether beginFrame
yields a command buffer (surface available). -/
structure IterInput where
  time : ℚ
  camInput : CameraInput := {}
  aspect : ℚ := 1
  surfaceAvailable : Bool := true
deriving DecidableEq, Repr

/-- Orchestrator state threaded through the loop: viewer object, camera,
previous wall-clock reading, the renderer's cyclic frame slot counter
(modelled from the spec: lve_renderer is not in the snapshot; the counter
advances modulo MAX_FRAMES_IN_FLIGHT at endFrame), the per-slot upload
buffers, and the Scene Registry. -/
structure AppState where
  viewerObject : LveGameObject
  camera : LveCamera := {}
  currentTime : ℚ := 0
  frameIndex : ℕ := 0
  uboBuffers : ℕ → Option GlobalUbo := fun _ => none
  gameObjects : GameObjectMap

/-- Result of one loop iteration: successor state, the event trace, the
frame time delta computed this iteration, and the Frame Context when a
frame was rendered (none when the frame was skipped). -/
structure IterResult where
  state : AppState
  trace : List Event
  frameTime : ℚ
  frame : Option FrameInfo

/-- Frame time delta computed by the loop: wall-clock difference between
this iteration's clock reading and the stored previous one. -/
def frameDelta (st : AppState) (inp : IterInput) : ℚ :=
  inp.time - st.currentTime

/-- Viewer object after this iteration's moveInPlaneXZ call. -/
def frameViewer (st : AppState) (inp : IterInput) : LveGameObject :=
  moveInPlaneXZ inp.camInput (frameDelta st inp) st.viewerObject

/-- Camera after this iteration's setViewYXZ and setPerspectiveProjection
calls (fovy 50 degrees, near 0.1, far 100, aspect from the renderer). -/
def frameCamera (st : AppState) (inp : IterInput) : LveCamera :=
  LveCamera.setPerspectiveProjection
    (LveCamera.setViewYXZ st.camera
      (frameViewer st inp).transform.translation
      (frameViewer st inp).transform.rotation)
    50 inp.aspect (1/10) 100

/-- The Shared State Block assembled in the update phase of a rendered
frame: camera matrices copied from this iteration's camera, then the
lighting subsystem's update writes the light descriptors. -/
def frameUbo (st : AppState) (inp : IterInput) : GlobalUbo :=
  PointLightSystem.update st.gameObjects
    { projection := LveCamera.getProjection (frameCamera st inp),
      view := LveCamera.getView (frameCamera st inp),
      inverseView := LveCamera.getInverseView (frameCamera st inp),
      pointLights := [] }

/-- Event trace of an iteration whose beginFrame yielded a command buffer,
in the source's program order. -/
def okTrace : List Event :=
  [Event.pollEvents, Event.moveCamera, Event.setView, Event.setProjection,
   Event.beginFrame true, Event.updateLights, Event.writeUbo, Event.flushUbo,
   Event.beginPass, Event.renderOpaque, Event.renderPointLight,
   Event.endPass, Event.endFrame]

/-- Event trace of an iteration whose beginFrame reported the surface
unavailable: only the four unconditional steps ran. -/
def skipTrace : List Event :=
  [Event.pollEvents, Event.moveCamera, Event.setView, Event.setProjection,
   Event.beginFrame false]

/-- One iteration of the while loop of FirstApp::run: poll events, compute
the frame time delta, advance the viewer and camera, then, only if
beginFrame yields a command buffer, build the Frame Context, assemble and
upload the Shared State Block, and run the render pass with the two
subsystems in fixed order.  A skipped frame touches no buffer and reports
no error. -/
def iterStep (st : AppState) (inp : IterInput) : IterResult :=
  let dt := frameDelta st inp
  let viewer := frameViewer st inp
  let cam := frameCamera st inp
  let st1 : AppState :=
    { st with viewerObject := viewer, camera := cam, currentTime := inp.time }
  if inp.surfaceAvailable then
    let fi : FrameInfo :=
      { frameIndex := st.frameIndex, frameTime := dt, camera := cam,
        gameObjects := st.gameObjects }
    let ubo := frameUbo st inp
    let st2 : AppState :=
      { st1 with
        uboBuffers := fun j => if j = st.frameIndex then some ubo else st.uboBuffers j,
        frameIndex := (st.frameIndex + 1) % MAX_FRAMES_IN_FLIGHT }
    { state := st2, trace := okTrace, frameTime := dt, frame := some fi }
  else
    { state := st1, trace := skipTrace, frameTime := dt, frame := none }

/-- The orchestrator loop over a finite schedule of external observations
(the schedule length is the number of iterations until shouldClose):
returns the final state and the per-iteration results. -/
def runLoop (st : AppState) : List IterInput → AppState × List IterResult
  | [] => (st, [])
  | inp :: rest =>
    let r := iterStep st inp
    let rec' := runLoop r.state rest
    (rec'.1, r :: rec'.2)

/-- Slot indices handed out to successive successfully begun frames. -/
def runSlots (st : AppState) : List IterInput → List ℕ
  | [] => []
  | inp :: rest =>
    (if inp.surfaceAvailable then [st.frameIndex] else []) ++
      runSlots (iterStep st inp).state rest

/-- Number of successfully begun frames in a schedule. -/
def okCount (inputs : List IterInput) : ℕ :=
  List.countP (fun i => i.surfaceAvailable) inputs

/-- Trace of an iteration with an available surface is the full frame trace. -/
theorem iterStep_trace_of_ok (st : AppState) (inp : IterInput)
    (h : inp.surfaceAvailable = true) : (iterStep st inp).trace = okTrace := by
  simp [iterStep, h]

/-- Trace of an iteration with an unavailable surface is the short skip trace. -/
theorem iterStep_trace_of_skip (st : AppState) (inp : IterInput)
    (h : inp.surfaceAvailable = false) : (iterStep st inp).trace = skipTrace := by
  simp [iterStep, h]

/-- The loop body never rewrites the Scene Registry. -/
theorem iterStep_gameObjects (st : AppState) (inp : IterInput) :
    (iterStep st inp).state.gameObjects = st.gameObjects := by
  cases hb : inp.surfaceAvailable <;> simp [iterStep, hb]

/-- The stored clock reading always becomes this iteration's reading. -/
theorem iterStep_currentTime (st : AppState) (inp : IterInput) :
    (iterStep st inp).state.currentTime = inp.time := by
  cases hb : inp.surfaceAvailable <;> simp [iterStep, hb]

/-- The frame time reported by an iteration is the raw clock difference. -/
theorem iterStep_frameTime (st : AppState) (inp : IterInput) :
    (iterStep st inp).frameTime = inp.time - st.currentTime := by
  cases hb : inp.surfaceAvailable <;> simp [iterStep, hb, frameDelta]

/-- The ring counter advances modulo the number of slots exactly on
successfully begun frames. -/
theorem iterStep_frameIndex (st : AppState) (inp : IterInput) :
    (iterStep st inp).state.frameIndex =
      if inp.surfaceAvailable then (st.frameIndex + 1) % MAX_FRAMES_IN_FLIGHT
      else st.frameIndex := by
  cases hb : inp.surfaceAvailable <;> simp [iterStep, hb]

/-- On a rendered frame the acquired slot's buffer receives this frame's
Shared State Block and every other slot keeps its contents. -/
theorem iterStep_uboBuffers_of_ok (st : AppState) (inp : IterInput)
    (h : inp.surfaceAvailable = true) :
    (iterStep st inp).state.uboBuffers =
      fun j => if j = st.frameIndex then some (frameUbo st inp) else st.uboBuffers j := by
  simp [iterStep, h]

/-- On a skipped frame no buffer changes. -/
theorem iterStep_uboBuffers_of_skip (st : AppState) (inp : IterInput)
    (h : inp.surfaceAvailable = false) :
    (iterStep st inp).state.uboBuffers = st.uboBuffers := by
  simp [iterStep, h]

/-- A skipped frame constructs no Frame Context. -/
theorem iterStep_frame_of_skip (st : AppState) (inp : IterInput)
    (h : inp.surfaceAvailable = false) : (iterStep st inp).frame = none := by
  simp [iterStep, h]

/-- A rendered frame's Frame Context carries this frame's slot, delta,
camera and the unchanged Scene Registry. -/
theorem iterStep_frame_of_ok (st : AppState) (inp : IterInput)
    (h : inp.surfaceAvailable = true) :
    (iterStep st inp).frame =
      some { frameIndex := st.frameIndex, frameTime := frameDelta st inp,
             camera := frameCamera st inp, gameObjects := st.gameObjects } := by
  simp [iterStep, h]

/-- The viewer object and camera advance on every iteration, rendered or
skipped. -/
theorem iterStep_viewer_camera (st : AppState) (inp : IterInput) :
    (iterStep st inp).state.viewerObject = frameViewer st inp ∧
    (iterStep st inp).state.camera = frameCamera st inp := by
  cases hb : inp.surfaceAvailable <;> simp [iterStep, hb]

/-- Across any whole run of the loop, the Scene Registry is untouched. -/
theorem runLoop_gameObjects (inputs : List IterInput) : ∀ st : AppState,
    ((runLoop st inputs).1).gameObjects = st.gameObjects := by
  induction inputs with
  | nil => intro st; simp [runLoop]
  | cons inp rest ih =>
    intro st
    simp [runLoop]
    exact (ih (iterStep st inp).state).trans (iterStep_gameObjects st inp)

/-- Slot indices handed out over a run: starting from a counter congruent
to c, they are the values c, c+1, ... reduced modulo the slot count, one
per successfully begun frame. -/
theorem runSlots_general (inputs : List IterInput) : ∀ (st : AppState) (c : ℕ),
    st.frameIndex = c % MAX_FRAMES_IN_FLIGHT →
    runSlots st inputs =
      List.map (fun f => f % MAX_FRAMES_IN_FLIGHT) (List.range' c (okCount inputs)) := by
  induction inputs with
  | nil => intro st c _; simp [runSlots, okCount]
  | cons inp rest ih =>
    intro st c hc
    cases hb : inp.surfaceAvailable with
    | false =>
      have hidx : (iterStep st inp).state.frameIndex = c % MAX_FRAMES_IN_FLIGHT := by
        rw [iterStep_frameIndex, hb]
        simpa using hc
      have hcount : okCount (inp :: rest) = okCount rest := by
        simp [okCount, hb]
      rw [runSlots, hb, hcount, ih (iterStep st inp).state c hidx]
      simp
    | true =>
      have hidx : (iterStep st inp).state.frameIndex = (c + 1) % MAX_FRAMES_IN_FLIGHT := by
        rw [iterStep_frameIndex, hb, hc]
        simp [Nat.add_mod]
      have hcount : okCount (inp :: rest) = okCount rest + 1 := by
        simp [okCount, hb]
      rw [runSlots, hb, hcount, List.range'_succ, ih (iterStep st inp).state (c + 1) hidx]
      simp [hc]

/-- The reported frame time deltas over a run are exactly the adjacent
differences of the clock readings, seeded with the pre-loop reading. -/
theorem runLoop_frameTimes (inputs : List IterInput) : ∀ st : AppState,
    List.map IterResult.frameTime ((runLoop st inputs).2) =
      List.zipWith (fun a b => a - b) (List.map IterInput.time inputs)
        (st.currentTime :: List.map IterInput.time inputs) := by
  induction inputs with
  | nil => intro st; simp [runLoop]
  | cons inp rest ih =>
    intro st
    have h1 := iterStep_frameTime st inp
    have h2 := iterStep_currentTime st inp
    rw [runLoop]
    simp only [List.map_cons, List.zipWith_cons_cons]
    rw [h1, ih (iterStep st inp).state, h2]

/-- Adjacent differences over a non-decreasing chain are non-negative. -/
theorem chain_le_zip_nonneg : ∀ (t0 : ℚ) (ts : List ℚ),
    List.Chain' (fun a b => a ≤ b) (t0 :: ts) →
    ∀ d ∈ List.zipWith (fun a b => a - b) ts (t0 :: ts), 0 ≤ d := by
  intro t0 ts
  induction ts generalizing t0 with
  | nil => intro _ d hd; simp at hd
  | cons a ts ih =>
    intro hchain d hd
    rw [List.chain'_cons] at hchain
    rw [List.zipWith_cons_cons, List.mem_cons] at hd
    rcases hd with hd | hd
    · rw [hd]; exact sub_nonneg.mpr hchain.1
    · exact ih a hchain.2 d hd

/-- Adjacent differences over a strictly increasing chain are positive. -/
theorem chain_lt_zip_pos : ∀ (t0 : ℚ) (ts : List ℚ),
    List.Chain' (fun a b => a < b) (t0 :: ts) →
    ∀ d ∈ List.zipWith (fun a b => a - b) ts (t0 :: ts), 0 < d := by
  intro t0 ts
  induction ts generalizing t0 with
  | nil => intro _ d hd; simp at hd
  | cons a ts ih =>
    intro hchain d hd
    rw [List.chain'_cons] at hchain
    rw [List.zipWith_cons_cons, List.mem_cons] at hd
    rcases hd with hd | hd
    · rw [hd]; exact sub_pos.mpr hchain.1
    · exact ih a hchain.2 d hd

/-- Emplacing a fresh identifier appends the entity at the end of the
iteration order. -/
theorem emplace_fresh (m : GameObjectMap) (obj : LveGameObject)
    (h : GameObjectMap.containsId m obj.id = false) :
    GameObjectMap.emplace m obj = m ++ [obj] := by
  simp [GameObjectMap.emplace, h]

/-- Folding emplace over entities with pairwise distinct fresh identifiers
appends them all in order. -/
theorem foldl_emplace (objs : List LveGameObject) : ∀ m : GameObjectMap,
    (∀ o ∈ objs, GameObjectMap.containsId m o.id = false) →
    List.Pairwise (fun a b => a.id ≠ b.id) objs →
    List.foldl GameObjectMap.emplace m objs = m ++ objs := by
  induction objs with
  | nil => intro m _ _; simp
  | cons o rest ih =>
    intro m hfresh hpair
    rw [List.pairwise_cons] at hpair
    have hm : GameObjectMap.containsId m o.id = false := hfresh o (List.mem_cons_self o rest)
    have hstep : List.foldl GameObjectMap.emplace m (o :: rest) =
        List.foldl GameObjectMap.emplace (m ++ [o]) rest := by
      rw [List.foldl_cons, emplace_fresh m o hm]
    have hfr : ∀ o' ∈ rest, GameObjectMap.containsId (m ++ [o]) o'.id = false := by
      intro o' ho'
      have ha := hfresh o' (List.mem_cons_of_mem o ho')
      have hb : o.id ≠ o'.id := hpair.1 o' ho'
      simp [GameObjectMap.containsId] at ha ⊢
      exact ⟨ha, hb⟩
    rw [hstep, ih (m ++ [o]) hfr hpair.2]
    simp

/-- A rendered frame's Frame Context hands every subsystem the same,
unchanged Scene Registry. -/
theorem iterStep_frame_gameObjects (st : AppState) (inp : IterInput) :
    ∀ fi ∈ (iterStep st inp).frame, fi.gameObjects = st.gameObjects := by
  intro fi hfi
  cases hb : inp.surfaceAvailable
  · rw [iterStep_frame_of_skip st inp hb] at hfi
    simp at hfi
  · rw [iterStep_frame_of_ok st inp hb] at hfi
    simp at hfi
    rw [← hfi]

/-- Concrete orchestrator state used to instantiate the theorems. -/
def wState : AppState := { viewerObject := { id := 100 }, gameObjects := [] }

/-- Concrete iteration observation with an available surface. -/
def wOk : IterInput := { time := 1 }

/-- Concrete iteration observation with an unavailable surface. -/
def wSkip : IterInput := { time := 1, surfaceAvailable := false }

/-- Five consecutive iteration observations, all with an available surface. -/
def wFive : List IterInput :=
  [{ time := 1 }, { time := 2 }, { time := 3 }, { time := 4 }, { time := 5 }]

/-- Clock schedule for the frame-time instantiation. -/
def wClock : List IterInput := [{ time := 0 }, { time := 1 }, { time := 3 }]

/-- The spec's solar light entity: intensity 350.2, color (1, 0.5, 0). -/
def wLightObj : LveGameObject :=
  { id := 7, color := ⟨1, 1/2, 0⟩,
    transform := { translation := ⟨-2, -30, -5⟩ },
    pointLight := some { lightIntensity := 1751/5 } }

/-- Concrete entity without a light attribute. -/
def wObjA : LveGameObject := { id := 0, hasModel := true }

/-- Concrete entity with a light attribute. -/
def wObjB : LveGameObject := { id := 1, pointLight := some { lightIntensity := 2 } }

/-- C1: in every frame in which beginFrame yields a command buffer, the
orchestrator invokes the opaque-geometry subsystem's render
(simpleRenderSystem.renderGameObjects) before the point-light subsystem's
render (pointLightSystem.render), and the whole frame trace — hence the
relative order — is the same in every such frame. -/
theorem simple_render_before_pointLight_render (st st2 : AppState)
    (inp inp2 : IterInput) (h : inp.surfaceAvailable = true)
    (h2 : inp2.surfaceAvailable = true) :
    Event.renderOpaque ∈ (iterStep st inp).trace ∧
    Event.renderPointLight ∈ (iterStep st inp).trace ∧
    List.indexOf Event.renderOpaque (iterStep st inp).trace <
      List.indexOf Event.renderPointLight (iterStep st inp).trace ∧
    (iterStep st inp).trace = (iterStep st2 inp2).trace := by
  rw [iterStep_trace_of_ok st inp h, iterStep_trace_of_ok st2 inp2 h2]
  exact ⟨by decide, by decide, by decide, rfl⟩

/-- Witness for C1 at a concrete state and input. -/
theorem simple_render_before_pointLight_render_witness :
    wOk.surfaceAvailable = true ∧
    (Event.renderOpaque ∈ (iterStep wState wOk).trace ∧
     Event.renderPointLight ∈ (iterStep wState wOk).trace ∧
     List.indexOf Event.renderOpaque (iterStep wState wOk).trace <
       List.indexOf Event.renderPointLight (iterStep wState wOk).trace ∧
     (iterStep wState wOk).trace = (iterStep wState wOk).trace) :=
  ⟨rfl, simple_render_before_pointLight_render wState wState wOk wOk rfl rfl⟩

/-- C2: in every rendered frame the Shared State Block is written to the
frame slot's buffer exactly once, after the lighting subsystem's update and
before beginSwapChainRenderPass; the slot holds exactly the update-phase
block at frame end (no render-phase mutation) and other slots are
untouched. -/
theorem ubo_written_once_before_pass (st : AppState) (inp : IterInput)
    (h : inp.surfaceAvailable = true) :
    List.count Event.writeUbo (iterStep st inp).trace = 1 ∧
    Event.updateLights ∈ (iterStep st inp).trace ∧
    Event.beginPass ∈ (iterStep st inp).trace ∧
    List.indexOf Event.updateLights (iterStep st inp).trace <
      List.indexOf Event.writeUbo (iterStep st inp).trace ∧
    List.indexOf Event.writeUbo (iterStep st inp).trace <
      List.indexOf Event.beginPass (iterStep st inp).trace ∧
    (iterStep st inp).state.uboBuffers st.frameIndex = some (frameUbo st inp) ∧
    (∀ j, j ≠ st.frameIndex → (iterStep st inp).state.uboBuffers j = st.uboBuffers j) := by
  rw [iterStep_trace_of_ok st inp h, iterStep_uboBuffers_of_ok st inp h]
  refine ⟨by decide, by decide, by decide, by decide, by decide, by simp, ?_⟩
  intro j hj
  simp [hj]

/-- Witness for C2 at a concrete state and input. -/
theorem ubo_written_once_before_pass_witness :
    wOk.surfaceAvailable = true ∧
    List.count Event.writeUbo (iterStep wState wOk).trace = 1 ∧
    (iterStep wState wOk).state.uboBuffers wState.frameIndex =
      some (frameUbo wState wOk) ∧
    (iterStep wState wOk).state.uboBuffers 1 = wState.uboBuffers 1 := by
  obtain ⟨h1, _, _, _, _, h6, h7⟩ := ubo_written_once_before_pass wState wOk rfl
  exact ⟨rfl, h1, h6, h7 1 (by decide)⟩

/-- C3: starting from slot counter 0, successive successfully begun frames
use slots 0, 1, 2, ... reduced modulo the frames-in-flight constant, so the
F-th frame uses slot F mod N, covering all N values with period N; the
modelled constant is N = 2. -/
theorem slot_of_frame_F_is_F_mod_N (st : AppState) (inputs : List IterInput)
    (h : st.frameIndex = 0) :
    runSlots st inputs =
      List.map (fun f => f % MAX_FRAMES_IN_FLIGHT) (List.range (okCount inputs)) ∧
    MAX_FRAMES_IN_FLIGHT = 2 := by
  constructor
  · rw [List.range_eq_range']
    exact runSlots_general inputs st 0 (h.trans (Nat.zero_mod _).symm)
  · rfl

/-- Witness for C3: five acquisitions from a fresh state yield the slot
sequence 0, 1, 0, 1, 0. -/
theorem slot_of_frame_F_is_F_mod_N_witness :
    wState.frameIndex = 0 ∧ runSlots wState wFive = [0, 1, 0, 1, 0] := by
  have h := slot_of_frame_F_is_F_mod_N wState wFive rfl
  exact ⟨rfl, h.1.trans (by decide)⟩

/-- C4: an iteration whose beginFrame reports the surface unavailable
invokes no subsystem update or render, neither constructs nor uploads the
Shared State Block, builds no Frame Context, changes no slot buffer,
reports no error (iterStep is total), and the loop simply proceeds with the
remaining iterations. -/
theorem skipped_frame_invokes_nothing (st : AppState) (inp : IterInput)
    (h : inp.surfaceAvailable = false) :
    (iterStep st inp).trace = skipTrace ∧
    Event.updateLights ∉ (iterStep st inp).trace ∧
    Event.renderOpaque ∉ (iterStep st inp).trace ∧
    Event.renderPointLight ∉ (iterStep st inp).trace ∧
    Event.writeUbo ∉ (iterStep st inp).trace ∧
    Event.flushUbo ∉ (iterStep st inp).trace ∧
    Event.beginPass ∉ (iterStep st inp).trace ∧
    (iterStep st inp).frame = none ∧
    (iterStep st inp).state.uboBuffers = st.uboBuffers ∧
    (∀ rest, runLoop st (inp :: rest) =
      ((runLoop (iterStep st inp).state rest).1,
        iterStep st inp :: (runLoop (iterStep st inp).state rest).2)) := by
  refine ⟨iterStep_trace_of_skip st inp h, ?_, ?_, ?_, ?_, ?_, ?_,
    iterStep_frame_of_skip st inp h, iterStep_uboBuffers_of_skip st inp h,
    fun rest => rfl⟩
  all_goals rw [iterStep_trace_of_skip st inp h]
  all_goals decide

/-- Witness for C4 at a concrete state and input. -/
theorem skipped_frame_invokes_nothing_witness :
    wSkip.surfaceAvailable = false ∧
    (iterStep wState wSkip).trace = skipTrace ∧
    (iterStep wState wSkip).frame = none ∧
    (iterStep wState wSkip).state.uboBuffers = wState.uboBuffers ∧
    runLoop wState (wSkip :: wFive) =
      ((runLoop (iterStep wState wSkip).state wFive).1,
        iterStep wState wSkip :: (runLoop (iterStep wState wSkip).state wFive).2) := by
  obtain ⟨h1, _, _, _, _, _, _, h8, h9, h10⟩ :=
    skipped_frame_invokes_nothing wState wSkip rfl
  exact ⟨rfl, h1, h8, h9, h10 wFive⟩

/-- C5: the designated lighting subsystem writes the dynamic lighting
portion by scanning the registry in iteration order for entities with a
light attribute; the written count never exceeds the fixed maximum for any
registry (excess silently truncated), and the camera portion of the block
is left unchanged by the lighting update (it is the only update-phase
writer of the lighting portion; render calls receive no block reference). -/
theorem lighting_truncated_at_max (registry : GameObjectMap) (ubo : GlobalUbo) :
    (PointLightSystem.update registry ubo).pointLights.length ≤ MAX_LIGHTS ∧
    (PointLightSystem.update registry ubo).pointLights =
      List.map mkPointLightDesc
        (List.take MAX_LIGHTS (List.filter (fun o => o.pointLight.isSome) registry)) ∧
    (PointLightSystem.update registry ubo).projection = ubo.projection ∧
    (PointLightSystem.update registry ubo).view = ubo.view ∧
    (PointLightSystem.update registry ubo).inverseView = ubo.inverseView := by
  refine ⟨?_, rfl, rfl, rfl, rfl⟩
  simp only [PointLightSystem.update, List.length_map, List.length_take]
  exact Nat.min_le_left _ _

/-- Witness for C5: the spec's solar-light scenario — one light entity with
intensity 350.2 and color (1, 0.5, 0) yields a one-element light array with
matching fields, within the maximum. -/
theorem lighting_truncated_at_max_witness :
    (PointLightSystem.update [wLightObj] ({} : GlobalUbo)).pointLights =
      [{ position := ⟨-2, -30, -5⟩, color := ⟨1, 1/2, 0⟩, intensity := 1751/5 }] ∧
    (PointLightSystem.update [wLightObj] ({} : GlobalUbo)).pointLights.length ≤
      MAX_LIGHTS := by
  have h := lighting_truncated_at_max [wLightObj] ({} : GlobalUbo)
  exact ⟨h.2.1.trans (by rfl), h.1⟩

/-- C6: the matrices uploaded in a rendered frame's Shared State Block are
exactly those computed by this iteration's camera update — the perspective
from this iteration's aspect and the view pair from the viewer transform
just advanced by this iteration's input and time delta — never another
frame's values. -/
theorem ubo_matrices_from_current_frame (st : AppState) (inp : IterInput)
    (h : inp.surfaceAvailable = true) :
    (iterStep st inp).state.uboBuffers st.frameIndex = some (frameUbo st inp) ∧
    (frameUbo st inp).projection = Mat4.perspective 50 inp.aspect (1/10) 100 ∧
    (frameUbo st inp).view =
      Mat4.viewYXZ (frameViewer st inp).transform.translation
        (frameViewer st inp).transform.rotation ∧
    (frameUbo st inp).inverseView =
      Mat4.invViewYXZ (frameViewer st inp).transform.translation
        (frameViewer st inp).transform.rotation ∧
    frameViewer st inp =
      moveInPlaneXZ inp.camInput (inp.time - st.currentTime) st.viewerObject := by
  refine ⟨?_, rfl, rfl, rfl, rfl⟩
  rw [iterStep_uboBuffers_of_ok st inp h]
  simp

/-- Witness for C6 at a concrete state and input. -/
theorem ubo_matrices_from_current_frame_witness :
    wOk.surfaceAvailable = true ∧
    (iterStep wState wOk).state.uboBuffers wState.frameIndex =
      some (frameUbo wState wOk) ∧
    (frameUbo wState wOk).projection = Mat4.perspective 50 wOk.aspect (1/10) 100 := by
  obtain ⟨h1, h2, _⟩ := ubo_matrices_from_current_frame wState wOk rfl
  exact ⟨rfl, h1, h2⟩

/-- C7: the Scene Registry is never mutated inside a frame: one iteration
leaves it unchanged, the Frame Context hands subsystems the same registry,
and a whole run of the loop leaves the registry exactly as the application
layer built it before the loop. -/
theorem registry_readonly_during_frame (st : AppState) (inp : IterInput)
    (inputs : List IterInput) :
    (iterStep st inp).state.gameObjects = st.gameObjects ∧
    (∀ fi ∈ (iterStep st inp).frame, fi.gameObjects = st.gameObjects) ∧
    ((runLoop st inputs).1).gameObjects = st.gameObjects :=
  ⟨iterStep_gameObjects st inp, iterStep_frame_gameObjects st inp,
    runLoop_gameObjects inputs st⟩

/-- Witness for C7 at a concrete state, input and schedule. -/
theorem registry_readonly_during_frame_witness :
    (iterStep wState wOk).state.gameObjects = wState.gameObjects ∧
    ((runLoop wState wFive).1).gameObjects = wState.gameObjects := by
  obtain ⟨h1, _, h3⟩ := registry_readonly_during_frame wState wOk wFive
  exact ⟨h1, h3⟩

/-- C8: the Scene Registry iterates in insertion order — building it by
emplacing entities with pairwise distinct identifiers reproduces the
insertion sequence — and within a frame every subsystem observes the same
unchanged registry through the Frame Context. -/
theorem registry_iterates_in_insertion_order (objs : List LveGameObject)
    (hids : List.Pairwise (fun a b => a.id ≠ b.id) objs)
    (st : AppState) (inp : IterInput) :
    List.foldl GameObjectMap.emplace [] objs = objs ∧
    (iterStep st inp).state.gameObjects = st.gameObjects ∧
    (∀ fi ∈ (iterStep st inp).frame, fi.gameObjects = st.gameObjects) := by
  refine ⟨?_, iterStep_gameObjects st inp, iterStep_frame_gameObjects st inp⟩
  have h := foldl_emplace objs [] (fun o _ => rfl) hids
  simpa using h

/-- Witness for C8: two distinct entities emplaced in order iterate in that
order. -/
theorem registry_iterates_in_insertion_order_witness :
    List.Pairwise (fun a b => a.id ≠ b.id) [wObjA, wObjB] ∧
    List.foldl GameObjectMap.emplace [] [wObjA, wObjB] = [wObjA, wObjB] := by
  have h := registry_iterates_in_insertion_order [wObjA, wObjB] (by decide) wState wOk
  exact ⟨by decide, h.1⟩

/-- C9: the frame time deltas of a run are exactly the raw wall-clock
differences of successive readings (no smoothing or clamping, spikes pass
through); with a non-decreasing clock every delta is non-negative, and with
strictly increasing readings every delta after the very first iteration is
strictly positive, so a zero delta can occur only on the first frame. -/
theorem frameTime_is_wallclock_difference (st : AppState)
    (inputs : List IterInput) :
    List.map IterResult.frameTime ((runLoop st inputs).2) =
      List.zipWith (fun a b => a - b) (List.map IterInput.time inputs)
        (st.currentTime :: List.map IterInput.time inputs) ∧
    (List.Chain' (fun a b => a ≤ b)
        (st.currentTime :: List.map IterInput.time inputs) →
      ∀ d ∈ List.map IterResult.frameTime ((runLoop st inputs).2), 0 ≤ d) ∧
    (List.Chain' (fun a b => a < b) (List.map IterInput.time inputs) →
      ∀ d ∈ List.tail (List.map IterResult.frameTime ((runLoop st inputs).2)), 0 < d) := by
  refine ⟨runLoop_frameTimes inputs st, ?_, ?_⟩
  · intro hchain d hd
    rw [runLoop_frameTimes inputs st] at hd
    exact chain_le_zip_nonneg st.currentTime (List.map IterInput.time inputs) hchain d hd
  · intro hchain d hd
    rw [runLoop_frameTimes inputs st] at hd
    cases hin : List.map IterInput.time inputs with
    | nil => rw [hin] at hd; simp at hd
    | cons a ts =>
      rw [hin] at hd hchain
      rw [List.zipWith_cons_cons, List.tail_cons] at hd
      exact chain_lt_zip_pos a ts hchain d hd

/-- Witness for C9: clock readings 0, 1, 3 from a start reading of 0 give
deltas 0, 1, 2; the non-negativity and positivity conclusions hold at the
concrete deltas. -/
theorem frameTime_is_wallclock_difference_witness :
    List.map IterResult.frameTime ((runLoop wState wClock).2) = [0, 1, 2] ∧
    (0:ℚ) ≤ 0 ∧ (0:ℚ) < 1 ∧ (0:ℚ) < 2 := by
  have h := frameTime_is_wallclock_difference wState wClock
  have hzip : List.zipWith (fun a b : ℚ => a - b) (List.map IterInput.time wClock)
      (wState.currentTime :: List.map IterInput.time wClock) = [0, 1, 2] := by
    norm_num [wClock, wState]
  have hlist := h.1.trans hzip
  have hch1 : List.Chain' (fun a b : ℚ => a ≤ b)
      (wState.currentTime :: List.map IterInput.time wClock) := by
    norm_num [wClock, wState]
  have hch2 : List.Chain' (fun a b : ℚ => a < b) (List.map IterInput.time wClock) := by
    norm_num [wClock, wState]
  refine ⟨hlist, ?_, ?_, ?_⟩
  · exact h.2.1 hch1 0 (by rw [hlist]; decide)
  · exact h.2.2 hch2 1 (by rw [hlist]; decide)
  · exact h.2.2 hch2 2 (by rw [hlist]; decide)

/-- C10: every loop iteration — rendered or skipped — performs input
polling, camera movement and the view/projection recomputation: the trace
always opens with those four steps, the viewer transform advances by
moveInPlaneXZ on this iteration's input, the camera holds this iteration's
matrices, and the clock reading is stored; a skipped iteration still does
all of this while producing only the short skip trace. -/
theorem camera_advances_on_skipped_frames (st : AppState) (inp : IterInput) :
    List.take 4 (iterStep st inp).trace =
      [Event.pollEvents, Event.moveCamera, Event.setView, Event.setProjection] ∧
    (iterStep st inp).state.viewerObject = frameViewer st inp ∧
    (iterStep st inp).state.camera = frameCamera st inp ∧
    frameViewer st inp =
      moveInPlaneXZ inp.camInput (inp.time - st.currentTime) st.viewerObject ∧
    (iterStep st inp).state.currentTime = inp.time ∧
    (inp.surfaceAvailable = false → (iterStep st inp).trace = skipTrace) := by
  refine ⟨?_, (iterStep_viewer_camera st inp).1, (iterStep_viewer_camera st inp).2, rfl,
    iterStep_currentTime st inp, fun hskip => iterStep_trace_of_skip st inp hskip⟩
  cases hb : inp.surfaceAvailable
  · rw [iterStep_trace_of_skip st inp hb]; decide
  · rw [iterStep_trace_of_ok st inp hb]; decide

/-- Witness for C10 at a concrete skipped iteration. -/
theorem camera_advances_on_skipped_frames_witness :
    List.take 4 (iterStep wState wSkip).trace =
      [Event.pollEvents, Event.moveCamera, Event.setView, Event.setProjection] ∧
    (iterStep wState wSkip).state.currentTime = wSkip.time ∧
    (iterStep wState wSkip).trace = skipTrace := by
  have h := camera_advances_on_skipped_frames wState wSkip
  exact ⟨h.1, h.2.2.2.2.1, h.2.2.2.2.2 rfl⟩

end ParkScene
